import Mathlib

/-!
Shallow embedding of the core of the MaaAssistantArknights Rust wrapper:

* the sled-backed event-log store, from maars_server/src/database.rs
  (record layout of insert_msg, Msg::from_ivec, get_last_msg, drop);
* the FFI session wrapper, from maa-rs_sys/src/lib.rs
  (Assistant: screenshot, uuid, tasks, set_task_parameters, trampoline,
  Drop);
* the session manager MaaManager, from src/api.rs.

Machine integers are modelled as Nat / Int with explicit two's-complement
conversion at the byte boundary.  The variable-length foreign calls are
modelled as oracles: a function from the offered buffer capacity to the
size the foreign surface reports, plus a function giving the bytes (or
task ids) it wrote.  Retry loops are embedded fuel-indexed: a result of
none means the fuel ran out with the loop still running, so a statement
quantified over all fuel amounts expresses genuine non-termination.
-/

/-- Big-endian byte encoding of a natural number into `w` bytes (the low
    `8*w` bits, most significant byte first), as produced by Rust's
    `to_be_bytes` on an unsigned value. -/
def natToBeBytes : Nat → Nat → List Nat
  | 0, _ => []
  | w + 1, n => natToBeBytes w (n / 256) ++ [n % 256]

/-- Big-endian byte decoding, as in Rust's `from_be_bytes`. -/
def beBytesToNat (bs : List Nat) : Nat :=
  bs.foldl (fun acc b => acc * 256 + b) 0

/-- Encoding of an `i64` as 8 big-endian bytes (`i64::to_be_bytes`): the
    two's-complement bit pattern, most significant byte first. -/
def i64ToBeBytes (t : Int) : List Nat :=
  natToBeBytes 8 (t % (2 ^ 64)).toNat

/-- Encoding of an `i32` as 4 big-endian bytes (`i32::to_be_bytes`). -/
def i32ToBeBytes (k : Int) : List Nat :=
  natToBeBytes 4 (k % (2 ^ 32)).toNat

/-- Decoding of 8 big-endian bytes as an `i64` (`i64::from_be_bytes`). -/
def beBytesToI64 (bs : List Nat) : Int :=
  if beBytesToNat bs < 2 ^ 63 then (beBytesToNat bs : Int)
  else (beBytesToNat bs : Int) - 2 ^ 64

/-- Decoding of 4 big-endian bytes as an `i32` (`i32::from_be_bytes`). -/
def beBytesToI32 (bs : List Nat) : Int :=
  if beBytesToNat bs < 2 ^ 31 then (beBytesToNat bs : Int)
  else (beBytesToNat bs : Int) - 2 ^ 32

/-- Tests whether a byte is a UTF-8 continuation byte (`0x80..=0xBF`). -/
def utf8Cont (b : Nat) : Bool :=
  128 ≤ b && b ≤ 191

/-- Validity of a byte sequence as UTF-8, with the acceptance ranges of
    Rust's `core::str::from_utf8` (RFC 3629: no surrogates, no overlong
    forms, nothing above U+10FFFF). -/
def utf8Valid : List Nat → Bool
  | [] => true
  | b :: rest =>
    if b ≤ 127 then utf8Valid rest
    else if 194 ≤ b && b ≤ 223 then
      match rest with
      | c1 :: rest1 => utf8Cont c1 && utf8Valid rest1
      | [] => false
    else if b = 224 then
      match rest with
      | c1 :: c2 :: rest2 =>
        (160 ≤ c1 && c1 ≤ 191) && (utf8Cont c2 && utf8Valid rest2)
      | _ => false
    else if 225 ≤ b && b ≤ 236 then
      match rest with
      | c1 :: c2 :: rest2 => utf8Cont c1 && (utf8Cont c2 && utf8Valid rest2)
      | _ => false
    else if b = 237 then
      match rest with
      | c1 :: c2 :: rest2 =>
        (128 ≤ c1 && c1 ≤ 159) && (utf8Cont c2 && utf8Valid rest2)
      | _ => false
    else if 238 ≤ b && b ≤ 239 then
      match rest with
      | c1 :: c2 :: rest2 => utf8Cont c1 && (utf8Cont c2 && utf8Valid rest2)
      | _ => false
    else if b = 240 then
      match rest with
      | c1 :: c2 :: c3 :: rest3 =>
        (144 ≤ c1 && c1 ≤ 191) && (utf8Cont c2 && (utf8Cont c3 && utf8Valid rest3))
      | _ => false
    else if 241 ≤ b && b ≤ 243 then
      match rest with
      | c1 :: c2 :: c3 :: rest3 =>
        utf8Cont c1 && (utf8Cont c2 && (utf8Cont c3 && utf8Valid rest3))
      | _ => false
    else if b = 244 then
      match rest with
      | c1 :: c2 :: c3 :: rest3 =>
        (128 ≤ c1 && c1 ≤ 143) && (utf8Cont c2 && (utf8Cont c3 && utf8Valid rest3))
      | _ => false
    else false

/-- Error kinds of `maars_server::database::Error`. -/
inductive DbError where
  | sledErr
  | serdeJson
  | ivecNotLongEnough
  | invalidUtf8String
deriving DecidableEq, Repr

/-- Payload of a stored message record: the fields of `database::Msg`
    that the record layout stores.  The `uuid` field of `Msg` is the
    tree name, passed through `from_ivec` unchanged and not stored in
    the record, so it is left out of the model. -/
structure MsgData where
  time : Int
  kind : Int
  body : List Nat
deriving DecidableEq, Repr

/-- Record bytes built by `insert_msg`: the 8-byte big-endian timestamp,
    the 4-byte big-endian message kind, then the raw body bytes. -/
def encodeMsg (m : MsgData) : List Nat :=
  i64ToBeBytes m.time ++ (i32ToBeBytes m.kind ++ m.body)

/-- Embedding of `Msg::from_ivec`: rejects records of length at most 12
    (`ivec.len() <= 12` in the source), then reads the timestamp from
    bytes 0..8 and the kind from bytes 8..12, and requires the remaining
    body bytes to be valid UTF-8. -/
def from_ivec (ivec : List Nat) : Except DbError MsgData :=
  if ivec.length ≤ 12 then .error .ivecNotLongEnough
  else
    if utf8Valid (ivec.drop 12) then
      .ok ⟨beBytesToI64 (ivec.take 8), beBytesToI32 ((ivec.drop 8).take 4), ivec.drop 12⟩
    else .error .invalidUtf8String

/-- The sled message database, modelled as an association list from tree
    name to that tree's records in key (append) order; the db-wide
    `generate_id` counter is monotone, so append order is key order. -/
abbrev MsgStore := List (String × List (List Nat))

/-- First-match association lookup of a tree by name. -/
def storeLookup (k : String) : MsgStore → Option (List (List Nat))
  | [] => none
  | kv :: rest => if kv.1 = k then some kv.2 else storeLookup k rest

/-- `Db::open_tree`: the store with the named tree created if absent. -/
def openTree (k : String) (s : MsgStore) : MsgStore :=
  if (storeLookup k s).isSome then s else s ++ [(k, [])]

/-- Appends one record at the tail of the named tree, creating the tree
    if it is absent (`open_tree` followed by `insert` under the next
    monotonically increasing key). -/
def storeAppend (k : String) (r : List Nat) : MsgStore → MsgStore
  | [] => [(k, [r])]
  | kv :: rest =>
    if kv.1 = k then (kv.1, kv.2 ++ [r]) :: rest else kv :: storeAppend k r rest

/-- Embedding of `insert_msg`: opens the tree named by the message's
    uuid and appends the encoded record under the next key. -/
def insert_msg (uuid : String) (m : MsgData) (s : MsgStore) : MsgStore :=
  storeAppend uuid (encodeMsg m) s

/-- Iterated `insert_msg`: appends a sequence of messages in order. -/
def appendAll (uuid : String) (msgs : List MsgData) (s : MsgStore) : MsgStore :=
  msgs.foldl (fun acc m => insert_msg uuid m acc) s

/-- Embedding of `database::drop` (sled `drop_tree`): removes the named
    tree and all its records. -/
def dropTree (k : String) (s : MsgStore) : MsgStore :=
  s.filter (fun kv => kv.1 != k)

/-- Decodes the records handed back by the backward iteration in
    `get_last_msg`, stopping at the first decode failure (the `?`
    operator propagates the error). -/
def decodeMsgs : List (List Nat) → Except DbError (List MsgData)
  | [] => .ok []
  | r :: rs =>
    match from_ivec r with
    | .error e => .error e
    | .ok m =>
      match decodeMsgs rs with
      | .error e => .error e
      | .ok ms => .ok (m :: ms)

/-- Embedding of `get_last_msg`: opens (creating if absent) the tree,
    drops it from the store when it is empty, then decodes up to `nums`
    records walking backward from the tail.  Returns the result paired
    with the state of the store after the call. -/
def get_last_msg (s : MsgStore) (uuid : String) (nums : Nat) :
    Except DbError (List MsgData) × MsgStore :=
  let s1 := openTree uuid s
  let recs := (storeLookup uuid s1).getD []
  if recs.isEmpty then (.ok [], dropTree uuid s1)
  else (decodeMsgs (recs.reverse.take nums), s1)

/-- Messages whose encoded record decodes back: timestamp in the `i64`
    range, kind in the `i32` range, and a non-empty valid-UTF-8 body
    (the source rejects records of length exactly 12, hence non-empty). -/
def MsgWf (m : MsgData) : Prop :=
  -(2 ^ 63) ≤ m.time ∧ m.time < 2 ^ 63 ∧ -(2 ^ 31) ≤ m.kind ∧ m.kind < 2 ^ 31 ∧
    m.body ≠ [] ∧ utf8Valid m.body = true

instance (m : MsgData) : Decidable (MsgWf m) := by
  unfold MsgWf
  infer_instance

/-- Error kinds of `maa_rs_sys::Error`. -/
inductive SysError where
  | unknown
  | tooLargeAlloc
  | invalidHandle
  | cNull
  | utf8Err
  | allocFailed
  | invalidPath
  | serializeErr
deriving DecidableEq, Repr

/-- Cached task entry (`maa_rs_sys::Task`, sans its redundant id copy). -/
structure TaskData where
  taskType : String
  params : String
deriving DecidableEq, Repr

/-- State of a `maa_rs_sys::Assistant`: whether the handle is null, the
    cached uuid bytes, the last connection target, and the known-task
    registry (a `HashMap<TaskId, Task>` modelled as an association
    list from numeric task id to task). -/
structure AsstState where
  handleNull : Bool
  uuid : Option (List Nat)
  target : Option String
  tasks : List (Int × TaskData)
deriving DecidableEq, Repr

/-- Embedding of `Assistant::create_task`: with a live handle, forwards
    to `AsstAppendTask` (whose returned id is the oracle argument
    `engineId`) and inserts the task into the known-task registry. -/
def create_task (a : AsstState) (engineId : Int) (ttype : String) (paramsJson : String) :
    Except SysError (AsstState × Int) :=
  if a.handleNull then .error .invalidHandle
  else
    .ok ({ a with tasks := (engineId, ⟨ttype, paramsJson⟩) ::
             a.tasks.filter (fun kv => kv.1 != engineId) }, engineId)

/-- Embedding of `Assistant::set_task_parameters`: checks only that the
    handle is live, serializes the parameters (an interior NUL byte
    makes `CString::new` fail with `CNull`), then forwards to
    `AsstSetTaskParams` and maps status 1 to `Ok` and any other status
    to `Error::Unknown`.  The known-task registry `a.tasks` is never
    consulted, and no UnknownTask error kind exists in `maa_rs_sys`. -/
def set_task_parameters (a : AsstState) (statusOf : Int → List Nat → Nat)
    (id : Int) (paramsJson : List Nat) : Except SysError Unit :=
  if a.handleNull then .error .invalidHandle
  else if paramsJson.contains 0 then .error .cNull
  else if statusOf id paramsJson = 1 then .ok () else .error .unknown

/-- Initial capacity of the screenshot buffer, `2 * 1920 * 1080 * 4`. -/
def screenshotInitSize : Nat := 2 * 1920 * 1080 * 4

/-- Hard ceiling of the screenshot buffer, `10 * 1920 * 1080 * 4`. -/
def screenshotCeiling : Nat := 10 * 1920 * 1080 * 4

/-- Fuel-indexed embedding of the retry loop in `Assistant::screenshot`.
    `reported c` is the size `AsstGetImage` reports when offered a
    buffer of capacity `c`; `written c i` is byte `i` it wrote into that
    buffer; `nullSize` is the runtime sentinel `AsstGetNullSize`.  The
    first component is the result (`none`: fuel ran out), the second the
    capacities of the foreign calls actually issued, in order. -/
def screenshot_loop (nullSize : Nat) (reported : Nat → Nat) (written : Nat → Nat → Nat) :
    Nat → Nat → Option (Except SysError (List Nat)) × List Nat
  | 0, _ => (none, [])
  | fuel + 1, buffSize =>
    if screenshotCeiling < buffSize then (some (.error .tooLargeAlloc), [])
    else if reported buffSize = nullSize then
      let rc := screenshot_loop nullSize reported written fuel (2 * buffSize)
      (rc.1, buffSize :: rc.2)
    else
      (some (.ok ((List.range (reported buffSize)).map (written buffSize))), [buffSize])

/-- Embedding of `Assistant::screenshot`: on a live handle, runs the
    negotiation loop starting from the image-sized initial capacity. -/
def screenshot (handleNull : Bool) (nullSize : Nat) (reported : Nat → Nat)
    (written : Nat → Nat → Nat) (fuel : Nat) :
    Option (Except SysError (List Nat)) × List Nat :=
  if handleNull then (some (.error .invalidHandle), [])
  else screenshot_loop nullSize reported written fuel screenshotInitSize

/-- Ceiling of the uuid and task-list buffers, `1024 * 1024`. -/
def smallBuffCeiling : Nat := 1024 * 1024

/-- Fuel-indexed embedding of the retry loop in `Assistant::uuid`.  The
    source loop has no `break`: after caching the fetched uuid it falls
    through into the next iteration with an unchanged capacity, so the
    only values the loop can produce are errors; `none` means the fuel
    ran out with the loop still running.  The buffer capacity is
    modelled as exactly the requested size. -/
def uuid_loop (nullSize : Nat) (reported : Nat → Nat) :
    Nat → Nat → Option (Except SysError (List Nat))
  | 0, _ => none
  | fuel + 1, buffSize =>
    if smallBuffCeiling < buffSize then some (.error .tooLargeAlloc)
    else if reported buffSize = nullSize then
      uuid_loop nullSize reported fuel (2 * buffSize)
    else if buffSize < reported buffSize then some (.error .tooLargeAlloc)
    else uuid_loop nullSize reported fuel buffSize

/-- Embedding of `Assistant::uuid` for a session with no cached uuid:
    on a live handle it enters the negotiation loop at capacity 1024. -/
def uuidFetch (handleNull : Bool) (nullSize : Nat) (reported : Nat → Nat) (fuel : Nat) :
    Option (Except SysError (List Nat)) :=
  if handleNull then some (.error .invalidHandle)
  else uuid_loop nullSize reported fuel 1024

/-- Fuel-indexed embedding of the retry loop in `Assistant::tasks`.
    `reported c` is what `AsstGetTasksList` reports for capacity `c` and
    `idAt c i` the `i`-th task id it wrote.  On a valid size the cached
    registry is pruned with `retain` to the ids just read, and the
    pruned registry is returned. -/
def tasks_loop (nullSize : Nat) (reported : Nat → Nat) (idAt : Nat → Nat → Int)
    (registry : List (Int × TaskData)) :
    Nat → Nat → Option (Except SysError (List (Int × TaskData)))
  | 0, _ => none
  | fuel + 1, buffSize =>
    if smallBuffCeiling < buffSize then some (.error .tooLargeAlloc)
    else if reported buffSize = nullSize then
      tasks_loop nullSize reported idAt registry fuel (2 * buffSize)
    else
      some (.ok (registry.filter
        (fun kv => ((List.range (reported buffSize)).map (idAt buffSize)).contains kv.1)))

/-- Outcome of one invocation of the callback bridge. -/
inductive CallbackOutcome where
  | panicked
  | invoked (msgId : Int) (payload : List Nat)
deriving DecidableEq, Repr

/-- Embedding of `Assistant::trampoline`: asserts that the context
    pointer is non-null, then converts the payload bytes with
    `CStr::to_str().expect(..)`, which panics when they are not valid
    UTF-8; otherwise the managed callback is invoked with the decoded
    text.  `payload` is the byte sequence up to the NUL terminator. -/
def trampoline (ctxNull : Bool) (msgId : Int) (payload : List Nat) : CallbackOutcome :=
  if ctxNull then .panicked
  else if utf8Valid payload then .invoked msgId payload
  else .panicked

/-- Observable teardown effects of `impl Drop for Assistant`. -/
inductive TeardownEffect where
  | destroyHandle
  | freeCallback
deriving DecidableEq, BEq, Repr

/-- Embedding of `impl Drop for Assistant`: nothing happens for a null
    handle; otherwise `AsstDestroy` runs first, and only then, when a
    callback context pointer exists, is the boxed closure reclaimed with
    `Box::from_raw`. -/
def dropAssistant (handleNull : Bool) (callbackPtr : Option Nat) : List TeardownEffect :=
  if handleNull then []
  else
    .destroyHandle :: (match callbackPtr with
      | some _ => [.freeCallback]
      | none => [])

/-- Structural operations on the session manager `MaaManager`. -/
inductive MgrOp where
  | create
  | delete (id : Int)
deriving DecidableEq, Repr

/-- State of `MaaManager`: the registered instance ids and the `i64`
    id counter, which starts at 0. -/
structure MgrState where
  instances : List Int
  counter : Int
deriving DecidableEq, Repr

/-- Fresh manager, `MaaManager::new`. -/
def mgrNew : MgrState := ⟨[], 0⟩

/-- The counter bump `self.id += 1` on an `i64`, with two's-complement
    wrap-around at the type's upper bound. -/
def wrapInc (x : Int) : Int :=
  if x + 1 = 2 ^ 63 then -(2 ^ 63) else x + 1

/-- Runs a sequence of manager operations from a state, returning the
    final state and the ids handed out by `create`, in order.
    `create` is `gen_id` followed by `instances.insert`; `delete` is
    `instances.remove`. -/
def runOps : List MgrOp → MgrState → MgrState × List Int
  | [], s => (s, [])
  | .create :: rest, s =>
    let id := wrapInc s.counter
    let rc := runOps rest ⟨s.instances ++ [id], id⟩
    (rc.1, id :: rc.2)
  | .delete i :: rest, s =>
    runOps rest ⟨s.instances.filter (fun j => j != i), s.counter⟩

/-- Number of `create` operations in a sequence. -/
def numCreates : List MgrOp → Nat
  | [] => 0
  | .create :: rest => numCreates rest + 1
  | .delete _ :: rest => numCreates rest

/-- The big-endian encoding of a natural into `w` bytes has length `w`. -/
theorem natToBeBytes_length (w : Nat) : ∀ n, (natToBeBytes w n).length = w := by
  induction w with
  | zero => intro n; rfl
  | succ w ih =>
    intro n
    simp [natToBeBytes, ih]

/-- Appending a final byte shifts the decoded value by one base-256 digit. -/
theorem beBytesToNat_append_single (bs : List Nat) (b : Nat) :
    beBytesToNat (bs ++ [b]) = beBytesToNat bs * 256 + b := by
  simp [beBytesToNat, List.foldl_append]

/-- Decoding the `w`-byte big-endian encoding recovers the value modulo
    `256 ^ w`. -/
theorem beBytesToNat_natToBeBytes (w : Nat) : ∀ n, beBytesToNat (natToBeBytes w n) = n % 256 ^ w := by
  induction w with
  | zero => intro n; simp [natToBeBytes, beBytesToNat, Nat.mod_one]
  | succ w ih =>
    intro n
    rw [natToBeBytes, beBytesToNat_append_single, ih]
    rw [pow_succ, mul_comm (256 ^ w) 256, Nat.mod_mul]
    omega

/-- Round-trip of the 8-byte big-endian `i64` encoding on the `i64`
    value range. -/
theorem beBytesToI64_i64ToBeBytes (t : Int) (h1 : -(2 ^ 63) ≤ t) (h2 : t < 2 ^ 63) :
    beBytesToI64 (i64ToBeBytes t) = t := by
  unfold beBytesToI64 i64ToBeBytes
  rw [beBytesToNat_natToBeBytes]
  simp only [(by norm_num : (256 : Nat) ^ 8 = 18446744073709551616),
    (by norm_num : (2 : Nat) ^ 63 = 9223372036854775808),
    (by norm_num : (2 : Int) ^ 64 = 18446744073709551616),
    (by norm_num : (2 : Int) ^ 63 = 9223372036854775808)] at h1 h2 ⊢
  have hlt : (t % 18446744073709551616).toNat < 18446744073709551616 := by omega
  rw [Nat.mod_eq_of_lt hlt]
  by_cases hc : (t % 18446744073709551616).toNat < 9223372036854775808
  · rw [if_pos hc]; omega
  · rw [if_neg hc]; omega

/-- Round-trip of the 4-byte big-endian `i32` encoding on the `i32`
    value range. -/
theorem beBytesToI32_i32ToBeBytes (k : Int) (h1 : -(2 ^ 31) ≤ k) (h2 : k < 2 ^ 31) :
    beBytesToI32 (i32ToBeBytes k) = k := by
  unfold beBytesToI32 i32ToBeBytes
  rw [beBytesToNat_natToBeBytes]
  simp only [(by norm_num : (256 : Nat) ^ 4 = 4294967296),
    (by norm_num : (2 : Nat) ^ 31 = 2147483648),
    (by norm_num : (2 : Int) ^ 32 = 4294967296),
    (by norm_num : (2 : Int) ^ 31 = 2147483648)] at h1 h2 ⊢
  have hlt : (k % 4294967296).toNat < 4294967296 := by omega
  rw [Nat.mod_eq_of_lt hlt]
  by_cases hc : (k % 4294967296).toNat < 2147483648
  · rw [if_pos hc]; omega
  · rw [if_neg hc]; omega

/-- The encoded record is the 12-byte header followed by the body. -/
theorem encodeMsg_length (m : MsgData) : (encodeMsg m).length = 12 + m.body.length := by
  simp [encodeMsg, i64ToBeBytes, i32ToBeBytes, natToBeBytes_length]
  omega

/-- Decoding an encoded record recovers the message, provided the
    timestamp and kind are in range and the body is non-empty valid
    UTF-8 (`from_ivec` rejects the bare 12-byte header). -/
theorem from_ivec_encodeMsg (m : MsgData) (h : MsgWf m) :
    from_ivec (encodeMsg m) = .ok m := by
  obtain ⟨ht1, ht2, hk1, hk2, hb, hv⟩ := h
  have l8 : (i64ToBeBytes m.time).length = 8 := natToBeBytes_length 8 _
  have l4 : (i32ToBeBytes m.kind).length = 4 := natToBeBytes_length 4 _
  have hlen : ¬((encodeMsg m).length ≤ 12) := by
    rw [encodeMsg_length]
    have : m.body.length ≠ 0 := fun hh => hb (List.eq_nil_of_length_eq_zero hh)
    omega
  have hdrop12 : (encodeMsg m).drop 12 = m.body := by
    have : (encodeMsg m).drop 12 = ((encodeMsg m).drop 8).drop 4 := by
      rw [List.drop_drop]
    rw [this, encodeMsg, List.drop_left' l8, List.drop_left' l4]
  have htake8 : (encodeMsg m).take 8 = i64ToBeBytes m.time := by
    rw [encodeMsg, List.take_left' l8]
  have hdrop8take4 : ((encodeMsg m).drop 8).take 4 = i32ToBeBytes m.kind := by
    rw [encodeMsg, List.drop_left' l8, List.take_left' l4]
  rw [from_ivec, if_neg hlen, hdrop12, if_pos hv, htake8, hdrop8take4,
    beBytesToI64_i64ToBeBytes m.time ht1 ht2, beBytesToI32_i32ToBeBytes m.kind hk1 hk2]

/-- Decoding a list of encoded well-formed records recovers them all. -/
theorem decodeMsgs_map_encodeMsg (ms : List MsgData) (h : ∀ m ∈ ms, MsgWf m) :
    decodeMsgs (ms.map encodeMsg) = .ok ms := by
  induction ms with
  | nil => rfl
  | cons m rest ih =>
    have hm : MsgWf m := h m (List.mem_cons_self m rest)
    have hrest := ih (fun x hx => h x (List.mem_cons_of_mem m hx))
    simp [decodeMsgs, from_ivec_encodeMsg m hm, hrest]

/-- Appending a record to the named tree makes its record list end in
    that record (creating the tree when it was absent). -/
theorem storeLookup_storeAppend_self (k : String) (r : List Nat) :
    ∀ s : MsgStore, storeLookup k (storeAppend k r s) = some ((storeLookup k s).getD [] ++ [r]) := by
  intro s
  induction s with
  | nil => simp [storeAppend, storeLookup]
  | cons kv rest ih =>
    by_cases h : kv.1 = k
    · simp [storeAppend, storeLookup, h]
    · simp [storeAppend, storeLookup, h, ih]

/-- Appending messages extends the named tree's record list by their
    encodings, in order. -/
theorem storeLookup_appendAll (k : String) :
    ∀ (msgs : List MsgData) (s : MsgStore) (recs : List (List Nat)),
      storeLookup k s = some recs →
      storeLookup k (appendAll k msgs s) = some (recs ++ msgs.map encodeMsg) := by
  intro msgs
  induction msgs with
  | nil => intro s recs h; simpa [appendAll] using h
  | cons m rest ih =>
    intro s recs h
    have hstep : storeLookup k (insert_msg k m s) = some (recs ++ [encodeMsg m]) := by
      rw [insert_msg, storeLookup_storeAppend_self, h]
      rfl
    have := ih (insert_msg k m s) (recs ++ [encodeMsg m]) hstep
    simpa [appendAll, List.append_assoc] using this

/-- Appending messages into a store without the named tree creates it
    with exactly their encodings. -/
theorem storeLookup_appendAll_of_none (k : String) (m : MsgData) (rest : List MsgData)
    (s : MsgStore) (h : storeLookup k s = none) :
    storeLookup k (appendAll k (m :: rest) s) = some ((m :: rest).map encodeMsg) := by
  have hstep : storeLookup k (insert_msg k m s) = some ([] ++ [encodeMsg m]) := by
    rw [insert_msg, storeLookup_storeAppend_self, h]
    rfl
  have := storeLookup_appendAll k rest (insert_msg k m s) ([] ++ [encodeMsg m]) hstep
  simpa [appendAll] using this

/-- A tree just created by `open_tree` in a store that lacked it is
    present and empty. -/
theorem storeLookup_append_new (k : String) :
    ∀ s : MsgStore, storeLookup k s = none → storeLookup k (s ++ [(k, [])]) = some [] := by
  intro s
  induction s with
  | nil => intro _; simp [storeLookup]
  | cons kv rest ih =>
    intro h
    rw [storeLookup] at h
    by_cases hk : kv.1 = k
    · rw [if_pos hk] at h; exact absurd h (by simp)
    · rw [if_neg hk] at h
      simpa [storeLookup, hk] using ih h

/-- `open_tree` of one name does not change the lookup of another. -/
theorem storeLookup_append_new_other (k k2 : String) (hne : k2 ≠ k) :
    ∀ s : MsgStore, storeLookup k2 (s ++ [(k, [])]) = storeLookup k2 s := by
  intro s
  induction s with
  | nil =>
    have hkk2 : ¬k = k2 := fun h => hne h.symm
    simp [storeLookup, hkk2]
  | cons kv rest ih =>
    by_cases hk : kv.1 = k2
    · simp [storeLookup, hk]
    · simp [storeLookup, hk, ih]

/-- After `drop_tree`, the named tree is gone. -/
theorem storeLookup_dropTree_self (k : String) :
    ∀ s : MsgStore, storeLookup k (dropTree k s) = none := by
  intro s
  induction s with
  | nil => rfl
  | cons kv rest ih =>
    by_cases hk : kv.1 = k
    · simpa [dropTree, hk] using ih
    · simpa [dropTree, storeLookup, hk] using ih

/-- `drop_tree` of one name does not change the lookup of another. -/
theorem storeLookup_dropTree_other (k k2 : String) (hne : k2 ≠ k) :
    ∀ s : MsgStore, storeLookup k2 (dropTree k s) = storeLookup k2 s := by
  intro s
  induction s with
  | nil => rfl
  | cons kv rest ih =>
    by_cases hk : kv.1 = k
    · have hkk2 : ¬k = k2 := fun h => hne h.symm
      simpa [dropTree, storeLookup, hk, hkk2] using ih
    · have hb : (kv.1 != k) = true := by simp [hk]
      by_cases h2 : kv.1 = k2
      · simp [dropTree, List.filter_cons, hb, storeLookup, h2, hne]
      · simpa [dropTree, List.filter_cons, hb, storeLookup, h2, hne] using ih

/-- One unfolding of the screenshot negotiation loop. -/
theorem screenshot_loop_succ (ns : Nat) (rep : Nat → Nat) (w : Nat → Nat → Nat)
    (fuel b : Nat) :
    screenshot_loop ns rep w (fuel + 1) b =
      if screenshotCeiling < b then (some (.error .tooLargeAlloc), [])
      else if rep b = ns then
        ((screenshot_loop ns rep w fuel (2 * b)).1,
          b :: (screenshot_loop ns rep w fuel (2 * b)).2)
      else (some (.ok ((List.range (rep b)).map (w b))), [b]) := rfl

/-- One unfolding of the uuid negotiation loop. -/
theorem uuid_loop_succ (ns : Nat) (rep : Nat → Nat) (fuel b : Nat) :
    uuid_loop ns rep (fuel + 1) b =
      if smallBuffCeiling < b then some (.error .tooLargeAlloc)
      else if rep b = ns then uuid_loop ns rep fuel (2 * b)
      else if b < rep b then some (.error .tooLargeAlloc)
      else uuid_loop ns rep fuel b := rfl

/-- One unfolding of the task-list negotiation loop. -/
theorem tasks_loop_succ (ns : Nat) (rep : Nat → Nat) (idAt : Nat → Nat → Int)
    (reg : List (Int × TaskData)) (fuel b : Nat) :
    tasks_loop ns rep idAt reg (fuel + 1) b =
      if smallBuffCeiling < b then some (.error .tooLargeAlloc)
      else if rep b = ns then tasks_loop ns rep idAt reg fuel (2 * b)
      else
        some (.ok (reg.filter
          (fun kv => ((List.range (rep b)).map (idAt b)).contains kv.1))) := rfl

/-- Keys of the pruned registry: a key survives `retain` exactly when it
    was a registry key and is among the reported ids. -/
theorem mem_map_fst_filter_contains (reg : List (Int × TaskData)) (ids : List Int) (k : Int) :
    (k ∈ (reg.filter (fun kv => ids.contains kv.1)).map Prod.fst) ↔
      (k ∈ reg.map Prod.fst ∧ k ∈ ids) := by
  simp only [List.mem_map, List.mem_filter]
  constructor
  · rintro ⟨kv, ⟨hmem, hc⟩, hfst⟩
    refine ⟨⟨kv, hmem, hfst⟩, ?_⟩
    have := List.elem_iff.mp hc
    simpa [hfst] using this
  · rintro ⟨⟨kv, hmem, hfst⟩, hids⟩
    refine ⟨kv, ⟨hmem, ?_⟩, hfst⟩
    exact List.elem_iff.mpr (by simpa [hfst] using hids)

/-- The ids handed out by `create` over any operation sequence, starting
    from a non-negative counter that cannot wrap, are consecutive. -/
theorem runOps_created (ops : List MgrOp) :
    ∀ (insts : List Int) (j : Int), 0 ≤ j → j + numCreates ops < 2 ^ 63 →
      (runOps ops ⟨insts, j⟩).2
        = (List.range (numCreates ops)).map (fun (i : Nat) => j + 1 + (i : Int)) := by
  induction ops with
  | nil =>
    intro insts j hj hb
    simp [runOps, numCreates]
  | cons op rest ih =>
    intro insts j hj hb
    cases op with
    | create =>
      have hcnt : (numCreates (MgrOp.create :: rest) : Int) = (numCreates rest : Int) + 1 := by
        simp [numCreates]
      have hw : wrapInc j = j + 1 := by
        rw [wrapInc, if_neg]
        omega
      have hrec := ih (insts ++ [j + 1]) (j + 1) (by omega) (by omega)
      show (wrapInc j) ::
          (runOps rest ⟨insts ++ [wrapInc j], wrapInc j⟩).2
        = (List.range (numCreates (MgrOp.create :: rest))).map (fun (i : Nat) => j + 1 + (i : Int))
      rw [hw, hrec]
      have hn : numCreates (MgrOp.create :: rest) = numCreates rest + 1 := rfl
      rw [hn, List.range_succ_eq_map, List.map_cons, List.map_map]
      refine congrArg₂ _ (by simp) ?_
      refine List.map_congr_left ?_
      intro i _
      simp [Function.comp]
      ring
    | delete i =>
      have hn : numCreates (MgrOp.delete i :: rest) = numCreates rest := rfl
      rw [hn] at hb ⊢
      show (runOps rest ⟨insts.filter (fun j2 => j2 != i), j⟩).2
        = (List.range (numCreates rest)).map (fun (i2 : Nat) => j + 1 + (i2 : Int))
      exact ih _ j hj hb

/-- C1: contrary to the claim, an invocation of the callback bridge with
    a message payload that is not valid UTF-8 (for instance the single
    byte 0xFF) does not become a best-effort no-op: `trampoline`
    converts with `expect`, which panics — the failure unwinds into the
    foreign caller instead of being swallowed as an encoding error. -/
theorem C1_trampoline_panics_on_invalid_utf8 :
    utf8Valid [255] = false ∧ trampoline false 3 [255] = .panicked :=
  ⟨rfl, rfl⟩

/-- C2: contrary to the claim, `Assistant::uuid` cannot terminate with
    `Ok`: its negotiation loop has no `break` after caching the fetched
    value.  First, with a foreign surface that always reports the valid
    size 16, the loop runs forever (out of fuel at every fuel amount);
    second, for every oracle and every fuel the loop never produces a
    success value, only an error or a still-running state. -/
theorem C2_uuid_loop_never_succeeds :
    (∀ fuel : Nat, uuid_loop 18446744073709551615 (fun _ => 16) fuel 1024 = none) ∧
    (∀ (ns : Nat) (rep : Nat → Nat) (fuel b : Nat),
        uuid_loop ns rep fuel b = none ∨
          ∃ e, uuid_loop ns rep fuel b = some (.error e)) := by
  constructor
  · intro fuel
    induction fuel with
    | zero => rfl
    | succ fuel ih =>
      rw [uuid_loop_succ, if_neg (by norm_num [smallBuffCeiling]),
        if_neg (by norm_num), if_neg (by norm_num)]
      exact ih
  · intro ns rep fuel
    induction fuel with
    | zero => intro b; exact Or.inl rfl
    | succ fuel ih =>
      intro b
      rw [uuid_loop_succ]
      by_cases h1 : smallBuffCeiling < b
      · rw [if_pos h1]; exact Or.inr ⟨.tooLargeAlloc, rfl⟩
      · rw [if_neg h1]
        by_cases h2 : rep b = ns
        · rw [if_pos h2]; exact ih (2 * b)
        · rw [if_neg h2]
          by_cases h3 : b < rep b
          · rw [if_pos h3]; exact Or.inr ⟨.tooLargeAlloc, rfl⟩
          · rw [if_neg h3]; exact ih b

/-- C3: contrary to the claim, the record round-trip fails on the empty
    body: encoding timestamp 0, kind 0 and an empty body yields the bare
    12-byte header, which `Msg::from_ivec` rejects with
    `IVecNotLongEnough` because it demands strictly more than 12 bytes
    (`ivec.len() <= 12` errs) instead of at least 12. -/
theorem C3_empty_body_round_trip_fails :
    (encodeMsg ⟨0, 0, []⟩).length = 12 ∧
      from_ivec (encodeMsg ⟨0, 0, []⟩) = .error .ivecNotLongEnough :=
  ⟨rfl, rfl⟩

/-- C4 counterexample: on a session whose registry is empty (no task id
    was ever returned by `create_task`), `set_task_parameters` with task
    id 5 returns `Ok` when the foreign surface reports success — it does
    not fail with an UnknownTask error as the claim states. -/
theorem C4_counterexample :
    (AsstState.mk false none none []).tasks = [] ∧
      set_task_parameters ⟨false, none, none, []⟩ (fun _ _ => 1) 5 [] = .ok () :=
  ⟨rfl, rfl⟩

/-- C4 (amended): `set_task_parameters` never consults the session's
    known-task registry — `maa_rs_sys::Error` has no UnknownTask kind.
    Its result is the same for any two sessions agreeing on handle
    nullity; with a live handle and NUL-free parameters it returns `Ok`
    exactly when the foreign call reports status 1, and `Error::Unknown`
    otherwise. -/
theorem C4_set_task_parameters_ignores_registry :
    (∀ (a b : AsstState) (f : Int → List Nat → Nat) (id : Int) (p : List Nat),
        a.handleNull = b.handleNull →
        set_task_parameters a f id p = set_task_parameters b f id p) ∧
    (∀ (a : AsstState) (f : Int → List Nat → Nat) (id : Int) (p : List Nat),
        a.handleNull = false → p.contains 0 = false →
        (set_task_parameters a f id p = .ok () ↔ f id p = 1)) ∧
    (∀ (a : AsstState) (f : Int → List Nat → Nat) (id : Int) (p : List Nat),
        a.handleNull = false → p.contains 0 = false → f id p ≠ 1 →
        set_task_parameters a f id p = .error .unknown) := by
  refine ⟨?_, ?_, ?_⟩
  · intro a b f id p h
    simp [set_task_parameters, h]
  · intro a f id p hh hp
    rw [set_task_parameters]
    simp only [hh, Bool.false_eq_true, if_false, hp]
    by_cases hf : f id p = 1 <;> simp [hf]
  · intro a f id p hh hp hf
    rw [set_task_parameters]
    simp only [hh, Bool.false_eq_true, if_false, hp]
    simp [hf]

/-- C4 witness: a concrete instance of the amended claim — two sessions
    with a live handle but different registries get the same result, and
    with a rejecting foreign surface the call fails with Unknown. -/
theorem C4_witness :
    set_task_parameters ⟨false, none, none, []⟩ (fun _ _ => 0) 5 []
        = set_task_parameters ⟨false, none, none, [(3, ⟨"StartUp", "x"⟩)]⟩ (fun _ _ => 0) 5 [] ∧
      set_task_parameters ⟨false, none, none, []⟩ (fun _ _ => 0) 5 [] = .error .unknown :=
  ⟨C4_set_task_parameters_ignores_registry.1 _ _ _ _ _ rfl,
    C4_set_task_parameters_ignores_registry.2.2 ⟨false, none, none, []⟩ _ _ _ rfl rfl
      (by norm_num)⟩

/-- C5 counterexample: with an empty prior registry and a foreign
    surface reporting the single live task id 7, `tasks` returns an
    empty mapping — its key set is not the reported id set, refuting the
    claim that the registry is pruned to exactly that set. -/
theorem C5_counterexample :
    tasks_loop 18446744073709551615 (fun _ => 1) (fun _ _ => (7 : Int)) [] 1 1024
        = some (.ok []) ∧
      (List.range 1).map (fun _ => (7 : Int)) = [7] ∧
      (7 : Int) ∉ ([] : List (Int × TaskData)).map Prod.fst :=
  ⟨rfl, rfl, by simp⟩

/-- C5 (amended): when `tasks` succeeds, the returned mapping is the
    prior registry restricted (by `retain`) to the ids reported at the
    successful foreign call: a key is present exactly when it was a
    registry key and is among the reported ids — the intersection of the
    two sets, not the reported set itself. -/
theorem C5_tasks_pruned_to_intersection :
    ∀ (ns : Nat) (rep : Nat → Nat) (idAt : Nat → Nat → Int)
      (reg : List (Int × TaskData)) (fuel b : Nat) (m : List (Int × TaskData)),
      tasks_loop ns rep idAt reg fuel b = some (.ok m) →
      ∃ c, rep c ≠ ns ∧
        m = reg.filter (fun kv => ((List.range (rep c)).map (idAt c)).contains kv.1) ∧
        ∀ k : Int, k ∈ m.map Prod.fst ↔
          (k ∈ reg.map Prod.fst ∧ k ∈ (List.range (rep c)).map (idAt c)) := by
  intro ns rep idAt reg fuel
  induction fuel with
  | zero =>
    intro b m h
    exact absurd h (by simp [tasks_loop])
  | succ fuel ih =>
    intro b m h
    rw [tasks_loop_succ] at h
    by_cases h1 : smallBuffCeiling < b
    · rw [if_pos h1] at h
      exact absurd h (by simp)
    · rw [if_neg h1] at h
      by_cases h2 : rep b = ns
      · rw [if_pos h2] at h
        exact ih (2 * b) m h
      · rw [if_neg h2] at h
        simp only [Option.some.injEq, Except.ok.injEq] at h
        refine ⟨b, h2, h.symm, ?_⟩
        intro k
        rw [← h]
        exact mem_map_fst_filter_contains reg _ k

/-- C5 witness: a concrete successful `tasks` call — registry holding id
    7, foreign surface reporting exactly id 7 — instantiating the
    amended claim. -/
theorem C5_witness :
    tasks_loop 0 (fun _ => 1) (fun _ _ => (7 : Int)) [(7, ⟨"StartUp", "x"⟩)] 1 1024
        = some (.ok [(7, ⟨"StartUp", "x"⟩)]) ∧
      ∃ c, (fun _ : Nat => 1) c ≠ 0 ∧
        [(7, ⟨"StartUp", "x"⟩)]
          = [((7 : Int), (⟨"StartUp", "x"⟩ : TaskData))].filter
              (fun kv => ((List.range ((fun _ : Nat => 1) c)).map
                ((fun _ _ => (7 : Int)) c)).contains kv.1) ∧
        ∀ k : Int, k ∈ [((7 : Int), (⟨"StartUp", "x"⟩ : TaskData))].map Prod.fst ↔
          (k ∈ [((7 : Int), (⟨"StartUp", "x"⟩ : TaskData))].map Prod.fst ∧
            k ∈ (List.range ((fun _ : Nat => 1) c)).map ((fun _ _ => (7 : Int)) c)) :=
  ⟨rfl, C5_tasks_pruned_to_intersection 0 _ _ _ 1 1024 _ rfl⟩

/-- C6: the screenshot negotiation loop (i) doubles the capacity and
    retries on each sentinel report, (ii) fails with `TooLargeAlloc` as
    soon as the capacity exceeds the hard ceiling of 10*1920*1080*4
    bytes, without issuing that foreign call, (iii) with an
    always-sentinel surface stops after exactly the three in-ceiling
    calls, at any fuel of at least four, (iv) never issues a foreign
    call with a capacity above the ceiling, and (v) on a valid reported
    size returns a byte vector of exactly that length. -/
theorem C6_screenshot_negotiation :
    (∀ (ns : Nat) (rep : Nat → Nat) (w : Nat → Nat → Nat) (fuel b : Nat),
        b ≤ screenshotCeiling → rep b = ns →
        screenshot_loop ns rep w (fuel + 1) b
          = ((screenshot_loop ns rep w fuel (2 * b)).1,
              b :: (screenshot_loop ns rep w fuel (2 * b)).2)) ∧
    (∀ (ns : Nat) (rep : Nat → Nat) (w : Nat → Nat → Nat) (fuel b : Nat),
        screenshotCeiling < b →
        screenshot_loop ns rep w (fuel + 1) b = (some (.error .tooLargeAlloc), [])) ∧
    (∀ (ns : Nat) (w : Nat → Nat → Nat) (fuel : Nat),
        screenshot false ns (fun _ => ns) w (fuel + 4)
          = (some (.error .tooLargeAlloc),
              [screenshotInitSize, 2 * screenshotInitSize, 4 * screenshotInitSize])) ∧
    (∀ (ns : Nat) (rep : Nat → Nat) (w : Nat → Nat → Nat) (fuel b c : Nat),
        c ∈ (screenshot_loop ns rep w fuel b).2 → c ≤ screenshotCeiling) ∧
    (∀ (ns : Nat) (rep : Nat → Nat) (w : Nat → Nat → Nat) (fuel b : Nat) (v : List Nat),
        (screenshot_loop ns rep w fuel b).1 = some (.ok v) →
        ∃ c, rep c ≠ ns ∧ v.length = rep c) := by
  refine ⟨?_, ?_, ?_, ?_, ?_⟩
  · intro ns rep w fuel b hle hrep
    rw [screenshot_loop_succ, if_neg (Nat.not_lt.mpr hle), if_pos hrep]
  · intro ns rep w fuel b hgt
    rw [screenshot_loop_succ, if_pos hgt]
  · intro ns w fuel
    show screenshot_loop ns (fun _ => ns) w (fuel + 3 + 1) screenshotInitSize = _
    rw [screenshot_loop_succ,
      if_neg (by norm_num [screenshotCeiling, screenshotInitSize]), if_pos rfl]
    have e2 : screenshot_loop ns (fun _ => ns) w (fuel + 3) (2 * screenshotInitSize)
        = ((screenshot_loop ns (fun _ => ns) w (fuel + 2)
              (2 * (2 * screenshotInitSize))).1,
            (2 * screenshotInitSize) ::
              (screenshot_loop ns (fun _ => ns) w (fuel + 2)
                (2 * (2 * screenshotInitSize))).2) := by
      show screenshot_loop ns (fun _ => ns) w (fuel + 2 + 1) (2 * screenshotInitSize) = _
      rw [screenshot_loop_succ,
        if_neg (by norm_num [screenshotCeiling, screenshotInitSize]), if_pos rfl]
    have e3 : screenshot_loop ns (fun _ => ns) w (fuel + 2) (2 * (2 * screenshotInitSize))
        = ((screenshot_loop ns (fun _ => ns) w (fuel + 1)
              (2 * (2 * (2 * screenshotInitSize)))).1,
            (2 * (2 * screenshotInitSize)) ::
              (screenshot_loop ns (fun _ => ns) w (fuel + 1)
                (2 * (2 * (2 * screenshotInitSize)))).2) := by
      show screenshot_loop ns (fun _ => ns) w (fuel + 1 + 1) (2 * (2 * screenshotInitSize)) = _
      rw [screenshot_loop_succ,
        if_neg (by norm_num [screenshotCeiling, screenshotInitSize]), if_pos rfl]
    have e4 : screenshot_loop ns (fun _ => ns) w (fuel + 1)
          (2 * (2 * (2 * screenshotInitSize)))
        = (some (.error .tooLargeAlloc), []) := by
      rw [screenshot_loop_succ,
        if_pos (by norm_num [screenshotCeiling, screenshotInitSize])]
    rw [e2, e3, e4]
    norm_num [screenshotInitSize]
  · intro ns rep w fuel
    induction fuel with
    | zero =>
      intro b c hc
      simp [screenshot_loop] at hc
    | succ fuel ih =>
      intro b c hc
      rw [screenshot_loop_succ] at hc
      by_cases h1 : screenshotCeiling < b
      · rw [if_pos h1] at hc
        simp at hc
      · rw [if_neg h1] at hc
        by_cases h2 : rep b = ns
        · rw [if_pos h2] at hc
          simp only [List.mem_cons] at hc
          rcases hc with rfl | hc2
          · exact Nat.not_lt.mp h1
          · exact ih (2 * b) c hc2
        · rw [if_neg h2] at hc
          simp only [List.mem_singleton] at hc
          subst hc
          exact Nat.not_lt.mp h1
  · intro ns rep w fuel
    induction fuel with
    | zero =>
      intro b v hv
      simp [screenshot_loop] at hv
    | succ fuel ih =>
      intro b v hv
      rw [screenshot_loop_succ] at hv
      by_cases h1 : screenshotCeiling < b
      · rw [if_pos h1] at hv
        simp at hv
      · rw [if_neg h1] at hv
        by_cases h2 : rep b = ns
        · rw [if_pos h2] at hv
          exact ih (2 * b) v hv
        · rw [if_neg h2] at hv
          simp only [Option.some.injEq, Except.ok.injEq] at hv
          exact ⟨b, h2, by rw [← hv]; simp⟩

/-- C6 witness: concrete instances — a sentinel report at capacity 1024
    doubles and retries; the always-sentinel run stops with
    `TooLargeAlloc` after the three in-ceiling calls; a reported size of
    5 yields a 5-byte result. -/
theorem C6_witness :
    screenshot_loop 0 (fun _ => 0) (fun _ _ => 0) 1 1024
        = ((screenshot_loop 0 (fun _ => 0) (fun _ _ => 0) 0 (2 * 1024)).1,
            1024 :: (screenshot_loop 0 (fun _ => 0) (fun _ _ => 0) 0 (2 * 1024)).2) ∧
      screenshot false 0 (fun _ => 0) (fun _ _ => 0) 4
        = (some (.error .tooLargeAlloc),
            [screenshotInitSize, 2 * screenshotInitSize, 4 * screenshotInitSize]) ∧
      ∃ c, (fun _ : Nat => 5) c ≠ 0 ∧
        ([9, 9, 9, 9, 9] : List Nat).length = (fun _ : Nat => 5) c :=
  ⟨C6_screenshot_negotiation.1 0 _ _ 0 1024 (by norm_num [screenshotCeiling]) rfl,
    C6_screenshot_negotiation.2.2.1 0 _ 0,
    C6_screenshot_negotiation.2.2.2.2 0 (fun _ => 5) (fun _ _ => 9) 1 1024 [9, 9, 9, 9, 9] rfl⟩

/-- C7: after appending `m` well-formed events to a partition the store
    did not yet contain, `get_last_msg` with requested count `n` returns
    `Ok` with exactly `min m n` events, in exact reverse-append order
    (most recent first); in particular with fewer events than requested
    it returns all of them and never an error. -/
theorem C7_get_last_msg_reverse_append_order :
    ∀ (s : MsgStore) (k : String) (msgs : List MsgData) (n : Nat),
      storeLookup k s = none → (∀ m ∈ msgs, MsgWf m) →
      (get_last_msg (appendAll k msgs s) k n).1 = .ok (msgs.reverse.take n) ∧
        (msgs.reverse.take n).length = min msgs.length n := by
  intro s k msgs n hnone hwf
  have hlensub : (msgs.reverse.take n).length = min msgs.length n := by
    rw [List.length_take, List.length_reverse, Nat.min_comm]
  refine ⟨?_, hlensub⟩
  cases msgs with
  | nil =>
    have hopen : openTree k s = s ++ [(k, [])] := by
      simp [openTree, hnone]
    have hnew := storeLookup_append_new k s hnone
    simp [appendAll, get_last_msg, hopen, hnew]
  | cons m rest =>
    have hlook := storeLookup_appendAll_of_none k m rest s hnone
    have hopen : openTree k (appendAll k (m :: rest) s) = appendAll k (m :: rest) s := by
      simp [openTree, hlook]
    have hdec : decodeMsgs ((((m :: rest).map encodeMsg).reverse).take n)
        = .ok ((m :: rest).reverse.take n) := by
      rw [← List.map_reverse, ← List.map_take]
      exact decodeMsgs_map_encodeMsg _
        (fun x hx => hwf x (List.mem_reverse.mp (List.mem_of_mem_take hx)))
    simp only [get_last_msg, hopen, hlook, Option.getD_some, List.isEmpty_cons,
      List.map_cons, Bool.false_eq_true, if_false]
    simpa using hdec

/-- C7 witness: two events appended to a fresh partition and read back
    with count 1 — the most recently appended event comes back alone. -/
theorem C7_witness :
    (get_last_msg (appendAll "dev" [⟨1, 2, [65]⟩, ⟨3, 4, [66]⟩] []) "dev" 1).1
        = .ok [⟨3, 4, [66]⟩] ∧
      ([(⟨3, 4, [66]⟩ : MsgData)]).length = min 2 1 :=
  C7_get_last_msg_reverse_append_order [] "dev" [⟨1, 2, [65]⟩, ⟨3, 4, [66]⟩] 1 rfl
    (by decide)

/-- C8: session ids are strictly increasing across creations and never
    reused: from a fresh manager, over any operation sequence whose
    create count stays below the `i64` wrap bound, the ids handed out by
    `create` are exactly 1, 2, 3, …, pairwise increasing; concretely a
    first create yields 1, and create–delete(1)–create yields 1 then 2,
    not 1 again. -/
theorem C8_ids_strictly_increasing_never_reused :
    (∀ ops : List MgrOp, (numCreates ops : Int) < 2 ^ 63 →
        (runOps ops mgrNew).2
          = (List.range (numCreates ops)).map (fun (i : Nat) => (i : Int) + 1)) ∧
    (∀ ops : List MgrOp, (numCreates ops : Int) < 2 ^ 63 →
        ((runOps ops mgrNew).2).Pairwise (· < ·)) ∧
    (runOps [.create] mgrNew).2 = [1] ∧
    (runOps [.create, .delete 1, .create] mgrNew).2 = [1, 2] := by
  have main : ∀ ops : List MgrOp, (numCreates ops : Int) < 2 ^ 63 →
      (runOps ops mgrNew).2
        = (List.range (numCreates ops)).map (fun (i : Nat) => (i : Int) + 1) := by
    intro ops hb
    have := runOps_created ops [] 0 le_rfl (by omega)
    rw [mgrNew, this]
    refine List.map_congr_left ?_
    intro i _
    ring
  refine ⟨main, ?_, by decide, by decide⟩
  intro ops hb
  rw [main ops hb]
  refine List.Pairwise.map _ ?_ (List.pairwise_lt_range (numCreates ops))
  intro a b hab
  omega

/-- C8 witness: two consecutive creations from a fresh manager hand out
    the ids 1 and 2. -/
theorem C8_witness :
    (runOps [MgrOp.create, MgrOp.create] mgrNew).2 = [1, 2] :=
  (C8_ids_strictly_increasing_never_reused.1 [MgrOp.create, MgrOp.create]
    (by decide)).trans (by decide)

/-- C9: at teardown of a session with a live handle and a registered
    callback, the handle is destroyed first and the callback allocation
    reclaimed second; the reclamation happens exactly once, never before
    the destroy, and a null-handle drop does nothing at all. -/
theorem C9_teardown_destroys_handle_before_freeing_callback :
    (∀ p : Nat, dropAssistant false (some p) = [.destroyHandle, .freeCallback]) ∧
    dropAssistant false none = [.destroyHandle] ∧
    (∀ p : Nat, dropAssistant true (some p) = []) ∧
    (∀ (hn : Bool) (cb : Option Nat),
        (dropAssistant hn cb).count .freeCallback ≤ 1) := by
  refine ⟨fun p => rfl, rfl, fun p => rfl, ?_⟩
  intro hn cb
  cases hn with
  | false =>
    cases cb with
    | none => decide
    | some p =>
      simp only [show dropAssistant false (some p)
        = [.destroyHandle, .freeCallback] from rfl]
      decide
  | true =>
    cases cb with
    | none => decide
    | some p =>
      simp only [show dropAssistant true (some p) = ([] : List TeardownEffect) from rfl]
      decide

/-- C10: `get_last_msg` leaves the store unchanged whenever the queried
    partition has at least one record; but on an empty or never-created
    partition it drops that partition as a side effect while still
    returning `Ok` with no events — so reading an existing empty
    partition mutates the store. -/
theorem C10_get_last_msg_drops_empty_partition :
    (∀ (s : MsgStore) (k : String) (n : Nat) (recs : List (List Nat)),
        storeLookup k s = some recs → recs ≠ [] →
        (get_last_msg s k n).2 = s) ∧
    (∀ (s : MsgStore) (k : String) (n : Nat),
        storeLookup k s = some [] ∨ storeLookup k s = none →
        (get_last_msg s k n).1 = .ok [] ∧
          storeLookup k (get_last_msg s k n).2 = none ∧
          ∀ k2, k2 ≠ k → storeLookup k2 (get_last_msg s k n).2 = storeLookup k2 s) ∧
    (∀ (s : MsgStore) (k : String) (n : Nat),
        storeLookup k s = some [] → (get_last_msg s k n).2 ≠ s) := by
  refine ⟨?_, ?_, ?_⟩
  · intro s k n recs hlook hne
    have hopen : openTree k s = s := by simp [openTree, hlook]
    cases recs with
    | nil => exact absurd rfl hne
    | cons r rs => simp [get_last_msg, hopen, hlook]
  · intro s k n hcase
    cases hcase with
    | inl hsome =>
      have hopen : openTree k s = s := by simp [openTree, hsome]
      have hpost : get_last_msg s k n = (.ok [], dropTree k s) := by
        simp [get_last_msg, hopen, hsome]
      refine ⟨by rw [hpost], ?_, ?_⟩
      · rw [hpost]
        exact storeLookup_dropTree_self k s
      · intro k2 hne
        rw [hpost]
        exact storeLookup_dropTree_other k k2 hne s
    | inr hnone =>
      have hopen : openTree k s = s ++ [(k, [])] := by simp [openTree, hnone]
      have hnew := storeLookup_append_new k s hnone
      have hpost : get_last_msg s k n = (.ok [], dropTree k (s ++ [(k, [])])) := by
        simp [get_last_msg, hopen, hnew]
      refine ⟨by rw [hpost], ?_, ?_⟩
      · rw [hpost]
        exact storeLookup_dropTree_self k _
      · intro k2 hne
        rw [hpost]
        rw [storeLookup_dropTree_other k k2 hne _]
        exact storeLookup_append_new_other k k2 hne s
  · intro s k n hsome heq
    have hopen : openTree k s = s := by simp [openTree, hsome]
    have hpost : get_last_msg s k n = (.ok [], dropTree k s) := by
      simp [get_last_msg, hopen, hsome]
    have hds : dropTree k s = s := by
      have h1 : (get_last_msg s k n).2 = dropTree k s := by rw [hpost]
      exact h1.symm.trans heq
    have := storeLookup_dropTree_self k s
    rw [hds, hsome] at this
    exact Option.noConfusion this

/-- C10 witness: a one-record partition is read without any state
    change; an existing empty partition is read back empty and dropped,
    changing the store. -/
theorem C10_witness :
    (get_last_msg [("dev", [[0]])] "dev" 3).2 = [("dev", [[0]])] ∧
      (get_last_msg [("dev", [])] "dev" 3).1 = .ok [] ∧
      (get_last_msg [("dev", [])] "dev" 3).2 ≠ [("dev", [])] :=
  ⟨C10_get_last_msg_drops_empty_partition.1 [("dev", [[0]])] "dev" 3 [[0]] rfl (by decide),
    (C10_get_last_msg_drops_empty_partition.2.1 [("dev", [])] "dev" 3 (Or.inl rfl)).1,
    C10_get_last_msg_drops_empty_partition.2.2 [("dev", [])] "dev" 3 rfl⟩
